import Mathlib

/-!
Verification of the ftpclient-go FTP client library.

This file gives a shallow embedding, in Lean 4, of the parts of the
repository that the specification's claims concern: the directory-listing
parsers (`parse`, `parseUnixFormat`, `parseDosFormat`, `parseDosDateTime`,
`parseDateTime`), the reply codecs (`parse227`, `parse257` and the compiled
pattern `regexp227`), the data-connection close logic (`FtpDataConn.Close`),
the transfer negotiation sequence (`transferCmd`), the aggregate listing
call (`Dir`), and the command logging of `SendCmd`/`Login`.

Go conventions are modelled explicitly:
* a Go function returning `(T, error)` becomes `GoResult T`, with a third
  alternative `panic` for runtime panics (out-of-range indexing/slicing);
* machine integers are `Nat`/`Int` with explicit wrapping where it matters
  (`int64ofUint64`, `int64wrap`);
* Go strings are modelled at rune granularity (`List Char`); the listing
  and reply inputs the program handles are ASCII, where byte and rune
  slicing coincide.
-/

deriving instance DecidableEq for Except

/-- Model of a Go `error` value as used by this repository: the sentinel
`errUnknownFormat` (compared by identity in `parse`) is its own
constructor; every other error (from `errors.New`, `strconv`, `time`,
`textproto` or the network) carries its message. -/
inductive GoError where
  | unknownFormat : GoError
  | msg : String → GoError
deriving DecidableEq, Repr

/-- Result of a Go call returning `(T, error)`: `ok` for a nil error,
`err` for a non-nil error, `panic` for a runtime panic. -/
inductive GoResult (α : Type) where
  | ok : α → GoResult α
  | err : GoError → GoResult α
  | panic : GoResult α
deriving DecidableEq, Repr

/-- A parsed date-time as produced by the repository's `time.Parse` calls
(the layouts in use carry no seconds, so seconds are omitted). -/
structure DateTime where
  year : Int
  month : Nat
  day : Nat
  hour : Nat
  minute : Nat
deriving DecidableEq, Repr

/-- `os.ModeDir`. -/
def modeDir : Nat := 2 ^ 31
/-- `os.ModeSymlink`. -/
def modeSymlink : Nat := 2 ^ 27
/-- `os.ModeDevice`. -/
def modeDevice : Nat := 2 ^ 26
/-- `os.ModeNamedPipe`. -/
def modeNamedPipe : Nat := 2 ^ 25
/-- `os.ModeSocket`. -/
def modeSocket : Nat := 2 ^ 24
/-- `os.ModeCharDevice`. -/
def modeCharDevice : Nat := 2 ^ 21

/-- The `fileInfo` structure of ftpparser.go: name, size (`int64`),
mode bits (`os.FileMode`), modification time, and the raw source line. -/
structure FileInfoData where
  name : String
  size : Int
  mode : Nat
  mtime : DateTime
  raw : String
deriving DecidableEq, Repr

/-- Go's `int64(u)` conversion of a `uint64` value. -/
def int64ofUint64 (n : Nat) : Int :=
  if n < 2 ^ 63 then (n : Int) else (n : Int) - 2 ^ 64

/-- Whitespace recognised by `unicode.IsSpace`, restricted to the
Latin-1 range (all listing input handled by this repository is ASCII). -/
def isGoSpace (c : Char) : Bool :=
  c = ' ' ∨ c = '\t' ∨ c = '\n' ∨ c = '\u000B' ∨ c = '\u000C' ∨ c = '\r' ∨
    c = '\u0085' ∨ c = ' '

/-- Go `strings.Fields`: the maximal runs of non-whitespace characters. -/
def goFields (cs : List Char) : List (List Char) :=
  (cs.splitOnP isGoSpace).filter (fun f => f ≠ [])

/-- Decimal value of a digit string, most significant digit first. -/
def charsVal (cs : List Char) : Nat :=
  cs.foldl (fun a c => 10 * a + (c.toNat - 48)) 0

/-- The underscore sanity check of `strconv` (Go `underscoreOK`), used by
`ParseUint` when called with base 0: underscores may appear only between
digits or directly after a base prefix. The loop state `saw` is `^` at the
start, `0` after a digit or prefix, `_` after an underscore, `!` after any
other character. -/
def underscoreLoop (hex : Bool) : List Char → Char → Bool
  | [], saw => saw ≠ '_'
  | c :: r, saw =>
    if c.isDigit ∨ (hex ∧ 'a' ≤ c.toLower ∧ c.toLower ≤ 'f') then
      underscoreLoop hex r '0'
    else if c = '_' then
      (if saw ≠ '0' then false else underscoreLoop hex r '_')
    else if saw = '_' then false
    else underscoreLoop hex r '!'

/-- Go `strconv.underscoreOK` on the original input string. -/
def underscoreOK (s : List Char) : Bool :=
  let s1 := match s with
    | c :: r => if c = '-' ∨ c = '+' then r else c :: r
    | [] => []
  match s1 with
  | '0' :: c :: r =>
    if c.toLower = 'b' ∨ c.toLower = 'o' ∨ c.toLower = 'x' then
      underscoreLoop (c.toLower = 'x') r '0'
    else underscoreLoop false s1 '^'
  | _ => underscoreLoop false s1 '^'

/-- Digit-accumulation loop of Go `strconv.ParseUint` with `bitSize = 64`:
consumes characters, skips underscores when the caller passed base 0,
fails on an invalid digit, and fails with a range error as soon as the
accumulated value would exceed `2^64 - 1`. -/
def goDigitsLoop (base : Nat) (base0 : Bool) : List Char → Nat → Except String Nat
  | [], acc => .ok acc
  | c :: rest, acc =>
    if c = '_' ∧ base0 then goDigitsLoop base base0 rest acc
    else
      let d : Option Nat :=
        if c.isDigit then some (c.toNat - 48)
        else if 'a' ≤ c.toLower ∧ c.toLower ≤ 'z' then some (c.toLower.toNat - 97 + 10)
        else none
      match d with
      | none => .error "invalid syntax"
      | some d =>
        if base ≤ d then .error "invalid syntax"
        else if 2 ^ 64 ≤ acc * base + d then .error "value out of range"
        else goDigitsLoop base base0 rest (acc * base + d)

/-- Go `strconv.ParseUint(s, baseArg, 64)` for the two call shapes this
repository uses (`baseArg` of 0 or 10): base-0 mode inspects a `0x`/`0o`/
`0b`/leading-`0` prefix and admits underscores subject to `underscoreOK`. -/
def goParseUintFull (s0 : List Char) (baseArg : Nat) : Except String Nat :=
  if s0 = [] then .error "invalid syntax"
  else
    let base0 := baseArg = 0
    let (base, s) :=
      if base0 then
        match s0 with
        | '0' :: c :: r =>
          if 3 ≤ s0.length ∧ c.toLower = 'b' then (2, r)
          else if 3 ≤ s0.length ∧ c.toLower = 'o' then (8, r)
          else if 3 ≤ s0.length ∧ c.toLower = 'x' then (16, r)
          else (8, c :: r)
        | '0' :: r => (8, r)
        | _ => (10, s0)
      else (baseArg, s0)
    match goDigitsLoop base base0 s 0 with
    | .error e => .error e
    | .ok v =>
      if base0 ∧ s0.contains '_' ∧ ¬ underscoreOK s0 then .error "invalid syntax"
      else .ok v

/-- `strconv.ParseUint(s, 0, 64)` as called on the Unix listing size field. -/
def goParseUint0 (s : List Char) : Except String Nat := goParseUintFull s 0

/-- `strconv.ParseUint(s, 10, 64)` as called on the DOS listing size token. -/
def goParseUint10 (s : List Char) : Except String Nat := goParseUintFull s 10

/-- Entry-type bit selected by the first character of field 0 of a
Unix-style listing line (the `switch fields[0][0]` of `parseUnixFormat`). -/
def typeBits (c : Char) : Nat :=
  if c = 'd' then modeDir
  else if c = 'l' then modeSymlink
  else if c = 'b' then modeDevice
  else if c = 'c' then modeCharDevice
  else if c = 'p' ∨ c = '=' then modeNamedPipe
  else if c = 's' then modeSocket
  else 0

/-- The permission loop of `parseUnixFormat`: for `i` in 0..2 it reads
`fields[0]` at indices `i*3+1`, `i*3+2`, `i*3+3`. The caller has already
established that all nine indices are in bounds. -/
def permBits (f0 : List Char) : Nat :=
  (List.range 3).foldl
    (fun m i =>
      let m := if f0.getD (i * 3 + 1) ' ' = 'r' then m ||| (4 <<< (3 * (2 - i))) else m
      let m := if f0.getD (i * 3 + 2) ' ' = 'w' then m ||| (2 <<< (3 * (2 - i))) else m
      if f0.getD (i * 3 + 3) ' ' = 'x' ∨ f0.getD (i * 3 + 3) ' ' = 's' then
        m ||| (1 <<< (3 * (2 - i)))
      else m)
    0

/-- Expect one literal character of a `time` layout. -/
def expectChar (c : Char) (v : List Char) : Except String (List Char) :=
  match v with
  | x :: r => if x = c then .ok r else .error "layout mismatch"
  | [] => .error "layout mismatch"

/-- Go `time` package `getnum`: a 1-2 digit number, exactly 2 digits when
`fixed` is true (zero-padded layout element). -/
def getnum2 (fixed : Bool) (v : List Char) : Except String (Nat × List Char) :=
  match v with
  | c1 :: c2 :: r =>
    if c1.isDigit then
      if c2.isDigit then .ok ((c1.toNat - 48) * 10 + (c2.toNat - 48), r)
      else if fixed then .error "bad value"
      else .ok (c1.toNat - 48, c2 :: r)
    else .error "bad value"
  | [c1] =>
    if c1.isDigit ∧ ¬ fixed then .ok (c1.toNat - 48, []) else .error "bad value"
  | [] => .error "bad value"

/-- Two-digit year element (`06`): two characters handed to the `time`
package's internal `atoi`, which admits a leading sign. -/
def year2 (v : List Char) : Except String (Int × List Char) :=
  match v with
  | c1 :: c2 :: r =>
    if c1 = '-' ∧ c2.isDigit then .ok (-((c2.toNat - 48 : Nat) : Int), r)
    else if c1 = '+' ∧ c2.isDigit then .ok (((c2.toNat - 48 : Nat) : Int), r)
    else if c1.isDigit ∧ c2.isDigit then
      .ok ((((c1.toNat - 48) * 10 + (c2.toNat - 48) : Nat) : Int), r)
    else .error "cannot parse"
  | _ => .error "cannot parse"

/-- Four-digit year element (`2006`): four characters, the first of which
must be a digit, handed to `atoi`. -/
def year4 (v : List Char) : Except String (Int × List Char) :=
  match v with
  | c1 :: c2 :: c3 :: c4 :: r =>
    if c1.isDigit ∧ c2.isDigit ∧ c3.isDigit ∧ c4.isDigit then
      .ok ((charsVal [c1, c2, c3, c4] : Nat), r)
    else .error "cannot parse"
  | _ => .error "cannot parse"

/-- The short month names consulted by the `Jan` layout element. -/
def monthNames : List String :=
  ["Jan", "Feb", "Mar", "Apr", "May", "Jun", "Jul", "Aug", "Sep", "Oct", "Nov", "Dec"]

/-- Go `time` month-name lookup: a case-insensitive three-character match
against the short month names. -/
def lookupMonth (v : List Char) : Except String (Nat × List Char) :=
  if 3 ≤ v.length then
    let key := (v.take 3).map Char.toLower
    match monthNames.findIdx? (fun n => n.data.map Char.toLower = key) with
    | some i => .ok (i + 1, v.drop 3)
    | none => .error "month"
  else .error "month"

/-- ASCII uppercase letter. -/
def isUpperA (c : Char) : Bool := 'A' ≤ c ∧ c ≤ 'Z'

/-- Zone-abbreviation element (`MST`) of `time.Parse`: `UTC`/`GMT`/`UT`
specials, otherwise a 3-5 uppercase-letter abbreviation whose 4th/5th
letter must be `T`. (The `GMT±offset` and `ChST` refinements of Go's
`parseTimeZone` are not modelled; every value this repository parses ends
in the literal `GMT`.) -/
def parseTZ (v : List Char) : Except String (List Char) :=
  if v.take 3 = "UTC".data ∨ v.take 3 = "GMT".data then .ok (v.drop 3)
  else if v.take 2 = "UT".data then .ok (v.drop 2)
  else
    let u := (v.take 6).takeWhile isUpperA
    if u.length = 3 then .ok (v.drop 3)
    else if u.length = 4 then
      (if v.getD 3 ' ' = 'T' then .ok (v.drop 4) else .error "zone")
    else if u.length = 5 then
      (if v.getD 4 ' ' = 'T' then .ok (v.drop 5) else .error "zone")
    else .error "zone"

/-- Leap-year rule used by `time.Date` validation. -/
def isLeap (y : Int) : Bool := y % 4 = 0 ∧ (y % 100 ≠ 0 ∨ y % 400 = 0)

/-- Days in a month, as used by `time.Parse`'s day-range validation. -/
def daysIn (m : Nat) (y : Int) : Nat :=
  if m = 2 then (if isLeap y then 29 else 28)
  else [31, 28, 31, 30, 31, 30, 31, 31, 30, 31, 30, 31].getD (m - 1) 0

/-- `time.Parse("_2 Jan 06 15:04 MST", value)`: the layout used by
ftpparser.go's `parseDateTime`. -/
def timeParseUnixLayout (v0 : List Char) : Except String DateTime := do
  let v := match v0 with
    | ' ' :: r => r
    | _ => v0
  let (day, v) ← getnum2 false v
  let v ← expectChar ' ' v
  let (month, v) ← lookupMonth v
  let v ← expectChar ' ' v
  let (yy, v) ← year2 v
  let v ← expectChar ' ' v
  let (hour, v) ← getnum2 false v
  if 24 ≤ hour then throw "hour out of range"
  let v ← expectChar ':' v
  let (minute, v) ← getnum2 true v
  if 60 ≤ minute then throw "minute out of range"
  let v ← expectChar ' ' v
  let v ← parseTZ v
  if v ≠ [] then throw "extra text"
  let year := if 69 ≤ yy then yy + 1900 else yy + 2000
  if day < 1 ∨ daysIn month year < day then throw "day out of range"
  return ⟨year, month, day, hour, minute⟩

/-- `time.Parse("01-02-06  03:04PM", value)`: the first DOS layout. -/
def timeParseDosLayout1 (v0 : List Char) : Except String DateTime := do
  let (month, v) ← getnum2 true v0
  if month = 0 ∨ 12 < month then throw "month out of range"
  let v ← expectChar '-' v
  let (day, v) ← getnum2 true v
  let v ← expectChar '-' v
  let (yy, v) ← year2 v
  let v ← expectChar ' ' v
  let v ← expectChar ' ' v
  let (hour12, v) ← getnum2 true v
  if 12 < hour12 then throw "hour out of range"
  let v ← expectChar ':' v
  let (minute, v) ← getnum2 true v
  if 60 ≤ minute then throw "minute out of range"
  let (pm, v) ←
    match v with
    | 'P' :: 'M' :: r => pure (true, r)
    | 'A' :: 'M' :: r => pure (false, r)
    | _ => throw "PM"
  if v ≠ [] then throw "extra text"
  let hour := if pm then (if hour12 < 12 then hour12 + 12 else hour12)
              else (if hour12 = 12 then 0 else hour12)
  let year := if 69 ≤ yy then yy + 1900 else yy + 2000
  if day < 1 ∨ daysIn month year < day then throw "day out of range"
  return ⟨year, month, day, hour, minute⟩

/-- `time.Parse("2006-01-02  15:04", value)`: the second DOS layout. -/
def timeParseDosLayout2 (v0 : List Char) : Except String DateTime := do
  let (year, v) ← year4 v0
  let v ← expectChar '-' v
  let (month, v) ← getnum2 true v
  if month = 0 ∨ 12 < month then throw "month out of range"
  let v ← expectChar '-' v
  let (day, v) ← getnum2 true v
  let v ← expectChar ' ' v
  let v ← expectChar ' ' v
  let (hour, v) ← getnum2 false v
  if 24 ≤ hour then throw "hour out of range"
  let v ← expectChar ':' v
  let (minute, v) ← getnum2 true v
  if 60 ≤ minute then throw "minute out of range"
  if v ≠ [] then throw "extra text"
  if day < 1 ∨ daysIn month year < day then throw "day out of range"
  return ⟨year, month, day, hour, minute⟩

/-- `parseDosDateTime` of ftpparser.go: try the 12-hour layout, then the
ISO-like layout. -/
def parseDosDateTime (input : List Char) : Except String DateTime :=
  match timeParseDosLayout1 input with
  | .ok dt => .ok dt
  | .error _ => timeParseDosLayout2 input

/-- `parseDosFormat` of ftpparser.go. `input[:17]` panics when the line is
shorter than 17 characters; a timestamp or size-token failure returns the
`errUnknownFormat` sentinel. -/
def parseDosFormat (input : String) : GoResult FileInfoData :=
  let cs := input.data
  if cs.length < 17 then .panic
  else
    match parseDosDateTime (cs.take 17) with
    | .error _ => .err .unknownFormat
    | .ok mtime =>
      let value := (cs.drop 17).dropWhile (fun c => c = ' ')
      if "<DIR>".data.isPrefixOf value then
        let rest := value.drop 5
        let name := rest.dropWhile (fun c => c = ' ')
        .ok ⟨name.asString, 0, modeDir, mtime, input⟩
      else
        match value.findIdx? (fun c => c = ' ') with
        | none => .err .unknownFormat
        | some space =>
          match goParseUint10 (value.take space) with
          | .error _ => .err .unknownFormat
          | .ok size =>
            let value2 := value.drop space
            let name := value2.dropWhile (fun c => c = ' ')
            .ok ⟨name.asString, int64ofUint64 size, 0, mtime, input⟩

/-- `parseDateTime` of ftpparser.go on `fields[5:8]` (here `f0 f1 f2`),
with the wall-clock year passed explicitly (the source reads
`time.Now().Date()`). `strconv.Itoa(thisYear)[2:4]` panics when the
year's decimal form has fewer than 4 characters. -/
def parseDateTime (thisYear : Int) (f0 f1 f2 : List Char) : GoResult DateTime :=
  if f2.contains ':' then
    if (Int.repr thisYear).data.length < 4 then .panic
    else
      match timeParseUnixLayout (f1 ++ [' '] ++ f0 ++ [' '] ++
          (((Int.repr thisYear).data.drop 2).take 2) ++ [' '] ++ f2 ++ " GMT".data) with
      | .error e => .err (.msg ("parsing time: " ++ e))
      | .ok dt => .ok dt
  else
    if f2.length ≠ 4 then .err (.msg "Invalid year format in time string")
    else
      match timeParseUnixLayout (f1 ++ [' '] ++ f0 ++ [' '] ++
          ((f2.drop 2).take 2) ++ " 00:00 GMT".data) with
      | .error e => .err (.msg ("parsing time: " ++ e))
      | .ok dt => .ok dt

/-- `parseUnixFormat` of ftpparser.go. Fewer than 9 whitespace fields is
the `errUnknownFormat` sentinel; the permission loop indexes `fields[0]`
at offsets 1..9 unconditionally, so a first field shorter than 10
characters panics; a size or date failure returns that error itself. -/
def parseUnixFormat (thisYear : Int) (input : String) : GoResult FileInfoData :=
  let fields := goFields input.data
  if fields.length < 9 then .err .unknownFormat
  else
    let f0 := fields.getD 0 []
    match f0 with
    | [] => .panic
    | t :: _ =>
      let mode0 := typeBits t
      if f0.length < 10 then .panic
      else
        let mode := mode0 ||| permBits f0
        match goParseUint0 (fields.getD 4 []) with
        | .error e => .err (.msg ("strconv.ParseUint: " ++ e))
        | .ok size =>
          match parseDateTime thisYear (fields.getD 5 []) (fields.getD 6 []) (fields.getD 7 []) with
          | .panic => .panic
          | .err e => .err e
          | .ok mtime =>
            let name := (List.intercalate [' '] (fields.drop 8)).asString
            .ok ⟨name, int64ofUint64 size, mode, mtime, input⟩

/-- `parse` of ftpparser.go: run `parseUnixFormat` then `parseDosFormat`
in order; the first result different from the `errUnknownFormat` sentinel
is returned; if both report it, so does `parse`. -/
def parse (thisYear : Int) (line : String) : GoResult FileInfoData :=
  match parseUnixFormat thisYear line with
  | .err .unknownFormat =>
    match parseDosFormat line with
    | .err .unknownFormat => .err .unknownFormat
    | r => r
  | r => r

/-- The scanner loop of `FtpServerConn.Dir`: parse each line, keep the
entries whose parse returned a nil error, propagate a panic. -/
def dirLoop (thisYear : Int) : List String → Option (List FileInfoData)
  | [] => some []
  | l :: rest =>
    match parse thisYear l with
    | .panic => none
    | .ok fi => (dirLoop thisYear rest).map (fun t => fi :: t)
    | .err _ => dirLoop thisYear rest

/-- `FtpServerConn.Dir` after a successful `transferCmd`: the data
connection yielded `lines`; `scanErr` is `scanner.Err()`. On a scanner
error the collected entries are discarded and the error returned. -/
def Dir (thisYear : Int) (lines : List String) (scanErr : Option GoError) :
    GoResult (List FileInfoData) :=
  match dirLoop thisYear lines with
  | none => .panic
  | some infos =>
    match scanErr with
    | some e => .err e
    | none => .ok infos

example :
    parse 2026 "drwxr-xr-x 2 user group 4096 Jan 15 2023 mydir" =
      .ok ⟨"mydir", 4096, modeDir ||| 0o755, ⟨2023, 1, 15, 0, 0⟩,
        "drwxr-xr-x 2 user group 4096 Jan 15 2023 mydir"⟩ := by decide

example :
    parse 2026 "01-15-23  03:04PM       1234 afile.txt" =
      .ok ⟨"afile.txt", 1234, 0, ⟨2023, 1, 15, 15, 4⟩,
        "01-15-23  03:04PM       1234 afile.txt"⟩ := by decide

example :
    parse 2026 "01-15-23  03:04PM <DIR>          mydir" =
      .ok ⟨"mydir", 0, modeDir, ⟨2023, 1, 15, 15, 4⟩,
        "01-15-23  03:04PM <DIR>          mydir"⟩ := by decide

example : parse 2026 "" = .panic := by decide

example : parse 2026 "d 1 2 3 4 Jan 15 2023 x" = .panic := by decide

example :
    parseUnixFormat 2026 "-rw-r--r-- 1 u g 9z9 Jan 15 2023 f" =
      .err (.msg "strconv.ParseUint: invalid syntax") := by decide

/-- A hard (non-sentinel) error of the Unix parser is returned by `parse`
as-is: the catch-all arm of the dispatch loop returns it without trying
the DOS parser. -/
theorem parse_of_unix_msg (thisYear : Int) (input : String) (m : String)
    (h : parseUnixFormat thisYear input = .err (.msg m)) :
    parse thisYear input = .err (.msg m) := by
  unfold parse
  rw [h]

/-- The source `parseDateTime` only ever produces message errors, never
the `errUnknownFormat` sentinel. -/
theorem parseDateTime_err_msg (thisYear : Int) (f0 f1 f2 : List Char) (e : GoError)
    (h : parseDateTime thisYear f0 f1 f2 = .err e) : ∃ m, e = .msg m := by
  unfold parseDateTime at h
  split at h
  · split at h
    · exact absurd h (by simp)
    · split at h
      · exact ⟨_, (GoResult.err.injEq _ _).mp h.symm⟩
      · exact absurd h (by simp)
  · split at h
    · exact ⟨_, (GoResult.err.injEq _ _).mp h.symm⟩
    · split at h
      · exact ⟨_, (GoResult.err.injEq _ _).mp h.symm⟩
      · exact absurd h (by simp)

/-- Claim C5, counterexample: the single-character line `a` is rejected as
unrecognized by the Unix parser, yet `parse` panics (in `parseDosFormat`'s
`input[:17]` slice) instead of returning the unrecognized-format error. -/
theorem c5_counterexample :
    parseUnixFormat 2026 "a" = .err .unknownFormat ∧ parse 2026 "a" = .panic := by
  decide

/-- Claim C5, amended: the dispatch tries the Unix parser then the DOS
parser in that order and the first result different from the
unrecognized-format sentinel decides (harder errors propagate); when both
report unrecognized, `parse` reports unrecognized; but a line shorter than
17 characters makes the DOS parser panic on its leading-timestamp slice,
so such lines crash `parse` rather than yield the unrecognized error. -/
theorem c5_dispatch_and_short_line_panic (thisYear : Int) (input : String) :
    (parseUnixFormat thisYear input ≠ .err .unknownFormat →
      parse thisYear input = parseUnixFormat thisYear input)
    ∧ (parseUnixFormat thisYear input = .err .unknownFormat →
        parseDosFormat input = .err .unknownFormat →
        parse thisYear input = .err .unknownFormat)
    ∧ (parseUnixFormat thisYear input = .err .unknownFormat →
        parseDosFormat input ≠ .err .unknownFormat →
        parse thisYear input = parseDosFormat input)
    ∧ (input.data.length < 17 → parseDosFormat input = .panic) := by
  refine ⟨?_, ?_, ?_, ?_⟩
  · intro h
    unfold parse
    cases hu : parseUnixFormat thisYear input with
    | ok fi => rfl
    | panic => rfl
    | err e =>
      cases e with
      | unknownFormat => exact absurd hu h
      | msg m => rfl
  · intro hu hd
    unfold parse
    rw [hu, hd]
  · intro hu hd
    unfold parse
    rw [hu]
    cases hdo : parseDosFormat input with
    | ok fi => rfl
    | panic => rfl
    | err e =>
      cases e with
      | unknownFormat => exact absurd hdo hd
      | msg m => rfl
  · intro h
    simp only [parseDosFormat]
    rw [if_pos h]

/-- Claim C5, witness: a line at least 17 characters long that both
parsers reject yields the unrecognized-format error. -/
theorem c5_witness :
    parse 2026 "this is not a listing line" = .err .unknownFormat :=
  (c5_dispatch_and_short_line_panic 2026 "this is not a listing line").2.1
    (by decide) (by decide)

/-- Claim C9: a line with at least 9 whitespace fields whose first field
is shorter than 10 characters makes the Unix parser panic (the permission
loop indexes field 0 at offsets 1..9 with no length check). -/
theorem c9_unix_short_field0_panics (thisYear : Int) (input : String)
    (h9 : 9 ≤ (goFields input.data).length)
    (hshort : ((goFields input.data).getD 0 []).length < 10) :
    parseUnixFormat thisYear input = .panic := by
  simp only [parseUnixFormat]
  rw [if_neg (Nat.not_lt.mpr h9)]
  cases hc : (goFields input.data).getD 0 [] with
  | nil => rfl
  | cons a b =>
    have hlen : (a :: b).length < 10 := hc ▸ hshort
    dsimp only
    rw [if_pos hlen]

/-- Claim C9, witness: the concrete line `d 1 2 3 4 Jan 15 2023 x` has 9
fields, a 1-character first field, and panics. -/
theorem c9_witness :
    9 ≤ (goFields "d 1 2 3 4 Jan 15 2023 x".data).length ∧
    ((goFields "d 1 2 3 4 Jan 15 2023 x".data).getD 0 []).length < 10 ∧
    parseUnixFormat 2026 "d 1 2 3 4 Jan 15 2023 x" = .panic :=
  ⟨by decide, by decide,
    c9_unix_short_field0_panics 2026 "d 1 2 3 4 Jan 15 2023 x" (by decide) (by decide)⟩

/-- Claim C6: in the Unix parser, fewer than 9 fields is the
unrecognized-format sentinel; once the field-count gate passes (and the
permission loop does not panic), a size-parse or date-parse failure is a
hard error, distinct from the sentinel, that `parse` returns directly
without consulting the DOS parser. -/
theorem c6_unix_error_discipline (thisYear : Int) (input : String) :
    ((goFields input.data).length < 9 →
      parseUnixFormat thisYear input = .err .unknownFormat)
    ∧ (∀ m, parseUnixFormat thisYear input = .err (.msg m) →
        parse thisYear input = .err (.msg m))
    ∧ (9 ≤ (goFields input.data).length →
        10 ≤ ((goFields input.data).getD 0 []).length →
        ((∃ m, goParseUint0 ((goFields input.data).getD 4 []) = .error m) ∨
          ((∃ n, goParseUint0 ((goFields input.data).getD 4 []) = .ok n) ∧
            (∃ e, parseDateTime thisYear ((goFields input.data).getD 5 [])
              ((goFields input.data).getD 6 [])
              ((goFields input.data).getD 7 []) = .err e))) →
        ∃ e, e ≠ GoError.unknownFormat ∧ parseUnixFormat thisYear input = .err e ∧
          parse thisYear input = .err e) := by
  refine ⟨?_, ?_, ?_⟩
  · intro h
    simp only [parseUnixFormat]
    rw [if_pos h]
  · exact fun m => parse_of_unix_msg thisYear input m
  · intro h9 h10 hfail
    obtain ⟨t, tl, hf0⟩ : ∃ t tl, (goFields input.data).getD 0 [] = t :: tl := by
      cases hc : (goFields input.data).getD 0 [] with
      | nil => rw [hc] at h10; simp at h10
      | cons a b => exact ⟨a, b, rfl⟩
    have h10' : ¬ (t :: tl).length < 10 := Nat.not_lt.mpr (hf0 ▸ h10)
    rcases hfail with ⟨m, hm⟩ | ⟨⟨n, hn⟩, e0, he0⟩
    · have hun : parseUnixFormat thisYear input =
          .err (.msg ("strconv.ParseUint: " ++ m)) := by
        simp only [parseUnixFormat]
        rw [if_neg (Nat.not_lt.mpr h9), hf0]
        dsimp only
        rw [if_neg h10', hm]
      exact ⟨.msg ("strconv.ParseUint: " ++ m), by simp, hun,
        parse_of_unix_msg thisYear input _ hun⟩
    · obtain ⟨m0, hm0⟩ := parseDateTime_err_msg thisYear _ _ _ e0 he0
      have hun : parseUnixFormat thisYear input = .err e0 := by
        simp only [parseUnixFormat]
        rw [if_neg (Nat.not_lt.mpr h9), hf0]
        dsimp only
        rw [if_neg h10', hn, he0]
      refine ⟨e0, by simp [hm0], hun, ?_⟩
      rw [hm0] at hun ⊢
      exact parse_of_unix_msg thisYear input _ hun

/-- Claim C6, witness: a 9-field line with an unparsable size yields a
hard error that `parse` returns directly. -/
theorem c6_witness :
    ∃ e, e ≠ GoError.unknownFormat ∧
      parseUnixFormat 2026 "-rw-r--r-- 1 u g 9z9 Jan 15 2023 f" = .err e ∧
      parse 2026 "-rw-r--r-- 1 u g 9z9 Jan 15 2023 f" = .err e :=
  (c6_unix_error_discipline 2026 "-rw-r--r-- 1 u g 9z9 Jan 15 2023 f").2.2
    (by decide) (by decide) (.inl ⟨"invalid syntax", by decide⟩)

/-- Claim C7, counterexample: on `01-02-06  03:04PM abc file` the leading
17-character timestamp parses, the size token `abc` does not, and
`parseDosFormat` returns the unrecognized-format sentinel — not a hard
error distinct from it. -/
theorem c7_counterexample :
    parseDosDateTime ("01-02-06  03:04PM abc file".data.take 17) = .ok ⟨2006, 1, 2, 15, 4⟩
    ∧ goParseUint10 "abc".data = .error "invalid syntax"
    ∧ parseDosFormat "01-02-06  03:04PM abc file" = .err .unknownFormat := by
  decide

/-- Claim C7, amended: the DOS parser treats a timestamp failure and a
size-token failure (and a missing space after the size token) uniformly:
each one yields the unrecognized-format ("try next format") signal; there
is no hard-error asymmetry. -/
theorem c7_dos_uniform_unknown (input : String) :
    (∀ m, 17 ≤ input.data.length →
      parseDosDateTime (input.data.take 17) = .error m →
      parseDosFormat input = .err .unknownFormat)
    ∧ (∀ dt space m, 17 ≤ input.data.length →
        parseDosDateTime (input.data.take 17) = .ok dt →
        ¬ ("<DIR>".data.isPrefixOf ((input.data.drop 17).dropWhile (fun c => c = ' ')) = true) →
        ((input.data.drop 17).dropWhile (fun c => c = ' ')).findIdx? (fun c => c = ' ') =
          some space →
        goParseUint10 (((input.data.drop 17).dropWhile (fun c => c = ' ')).take space) =
          .error m →
        parseDosFormat input = .err .unknownFormat) := by
  constructor
  · intro m h17 hts
    simp only [parseDosFormat]
    rw [if_neg (Nat.not_lt.mpr h17), hts]
  · intro dt space m h17 hts hdir hidx hsz
    simp only [parseDosFormat]
    rw [if_neg (Nat.not_lt.mpr h17), hts]
    dsimp only
    rw [if_neg hdir, hidx]
    dsimp only
    rw [hsz]

/-- Claim C7, witness: both failure modes of the amended statement on
concrete inputs. -/
theorem c7_witness :
    parseDosFormat "xx-02-06  03:04PM 12 file" = .err .unknownFormat ∧
    parseDosFormat "01-02-06  03:04PM abc2 file2" = .err .unknownFormat :=
  ⟨(c7_dos_uniform_unknown "xx-02-06  03:04PM 12 file").1 "cannot parse"
      (by decide) (by decide),
    (c7_dos_uniform_unknown "01-02-06  03:04PM abc2 file2").2 ⟨2006, 1, 2, 15, 4⟩ 4
      "invalid syntax" (by decide) (by decide) (by decide) (by decide) (by decide)⟩

/-- The scanner loop of `Dir` keeps exactly the lines whose parse
succeeded, in input order, provided no line panics. -/
theorem dirLoop_eq (thisYear : Int) (lines : List String)
    (h : ∀ l ∈ lines, parse thisYear l ≠ .panic) :
    dirLoop thisYear lines = some (lines.filterMap (fun l =>
      match parse thisYear l with
      | .ok fi => some fi
      | _ => none)) := by
  induction lines with
  | nil => rfl
  | cons l rest ih =>
    have hl := h l (by simp)
    have hrest : ∀ x ∈ rest, parse thisYear x ≠ .panic := fun x hx => h x (by simp [hx])
    cases hp : parse thisYear l with
    | panic => exact absurd hp hl
    | ok fi => simp [dirLoop, hp, ih hrest]
    | err e => simp [dirLoop, hp, ih hrest]

/-- Claim C10: with no scanner error, `Dir` omits every line whose
single-line parse returned an error — the unrecognized-format sentinel and
the Unix parser's hard errors alike — and returns exactly the successfully
parsed entries in input order, propagating no per-line failure. -/
theorem c10_dir_keeps_only_parsed (thisYear : Int) (lines : List String)
    (h : ∀ l ∈ lines, parse thisYear l ≠ .panic) :
    Dir thisYear lines none = .ok (lines.filterMap (fun l =>
      match parse thisYear l with
      | .ok fi => some fi
      | _ => none)) := by
  unfold Dir
  rw [dirLoop_eq thisYear lines h]

/-- Claim C10, witness: a listing with one good Unix line, one hard-error
Unix line (unparsable size), one unrecognizable line, and one good DOS
line returns exactly the two good entries, in order. -/
theorem c10_witness :
    Dir 2026 ["drwxr-xr-x 2 user group 4096 Jan 15 2023 mydir",
      "-rw-r--r-- 1 u g 9z9 Jan 15 2023 f",
      "not a listing line at all",
      "01-15-23  03:04PM       1234 afile.txt"] none =
    .ok [⟨"mydir", 4096, modeDir ||| 0o755, ⟨2023, 1, 15, 0, 0⟩,
        "drwxr-xr-x 2 user group 4096 Jan 15 2023 mydir"⟩,
      ⟨"afile.txt", 1234, 0, ⟨2023, 1, 15, 15, 4⟩,
        "01-15-23  03:04PM       1234 afile.txt"⟩] :=
  (c10_dir_keeps_only_parsed 2026 _ (by decide)).trans (by decide)

/-- `FtpDataConn.Close`: the auxiliary socket is closed (`closeErr` is
`conn.Close()`'s result), then `getResponse(226)` reads the final reply
(`finalReply`); a non-nil read error overwrites `err` before returning. -/
def ftpDataConnClose (closeErr : Option GoError)
    (finalReply : Except GoError (Int × String)) : Option GoError :=
  match finalReply with
  | .error e2 => some e2
  | .ok _ => closeErr

/-- Claim C2, counterexample: when both the socket close and the final
226 read fail, the returned error is the read error, not the close error
as claimed. -/
theorem c2_counterexample :
    ftpDataConnClose (some (.msg "close failed")) (.error (.msg "read 226 failed")) =
      some (.msg "read 226 failed") ∧
    some (GoError.msg "read 226 failed") ≠ some (GoError.msg "close failed") := by
  decide

/-- Claim C2, amended: a failed final-reply read always supersedes the
socket-close result (even a failed one); the close error is returned only
when the final-reply read succeeds. -/
theorem c2_reply_error_supersedes (closeErr : Option GoError)
    (finalReply : Except GoError (Int × String)) :
    (∀ e2, finalReply = .error e2 → ftpDataConnClose closeErr finalReply = some e2)
    ∧ (∀ v, finalReply = .ok v → ftpDataConnClose closeErr finalReply = closeErr) := by
  constructor
  · intro e2 h
    unfold ftpDataConnClose
    rw [h]
  · intro v h
    unfold ftpDataConnClose
    rw [h]

/-- Claim C2, witness: the amended priority at concrete error values. -/
theorem c2_witness :
    ftpDataConnClose (some (.msg "c")) (.error (.msg "r")) = some (.msg "r") ∧
    ftpDataConnClose none (.error (.msg "r")) = some (.msg "r") ∧
    ftpDataConnClose (some (.msg "c")) (.ok (226, "Closing data connection")) =
      some (.msg "c") :=
  ⟨(c2_reply_error_supersedes (some (.msg "c")) (.error (.msg "r"))).1 _ rfl,
    (c2_reply_error_supersedes none (.error (.msg "r"))).1 _ rfl,
    (c2_reply_error_supersedes (some (.msg "c")) (.ok (226, "Closing data connection"))).2 _ rfl⟩

/-- Go `strings.LastIndex` for a one-character needle, as an index into
the rune list. -/
def goLastIndex (cs : List Char) (c : Char) : Option Nat :=
  match cs.reverse.findIdx? (fun x => x = c) with
  | none => none
  | some j => some (cs.length - 1 - j)

/-- `parse257`: find the first and last double quote; if either is absent
report the unsupported-format error; otherwise slice strictly between
them (`msg[start+1 : end]`), which panics when `start + 1 > end`. -/
def parse257 (msg : String) : GoResult String :=
  match msg.data.findIdx? (fun c => c = '"'), goLastIndex msg.data '"' with
  | some start, some e =>
    if start + 1 ≤ e then
      .ok ((msg.data.drop (start + 1)).take (e - (start + 1))).asString
    else .panic
  | _, _ => .err (.msg "Unsuported response format")

/-- The characters of `List.asString`. -/
theorem data_asString (l : List Char) : (l.asString).data = l := rfl

/-- Claim C4, counterexample: a message containing exactly one double
quote makes `parse257` panic (slice lower bound above upper bound) rather
than fail with an error. -/
theorem c4_counterexample :
    parse257 "\"" = .panic ∧ ("\"".data.count '"') = 1 := by
  decide

/-- Finding the first quote in a list that starts with a quote-free
prefix. -/
theorem findIdxQ_prefix (a : List Char) (r : List Char) (ha : '"' ∉ a) :
    (a ++ '"' :: r).findIdx? (fun c => c = '"') = some a.length := by
  have hfa : a.findIdx? (fun c => c = '"') = none := by
    rw [List.findIdx?_eq_none_iff]
    intro x hx
    simp only [decide_eq_false_iff_not]
    intro he
    exact ha (he ▸ hx)
  simp [List.findIdx?_append, List.findIdx?_cons, hfa]

/-- Claim C4, amended: with no double quote in the message `parse257`
fails with the unsupported-format error; with exactly one double quote it
panics (the slice's lower bound exceeds its upper bound); with at least
two it returns the substring strictly between the first and the last
double quote. -/
theorem c4_quote_cases :
    (∀ msg : String, '"' ∉ msg.data →
      parse257 msg = .err (.msg "Unsuported response format"))
    ∧ (∀ a b : List Char, '"' ∉ a → '"' ∉ b →
        parse257 (a ++ '"' :: b).asString = .panic)
    ∧ (∀ pre mid post : List Char, '"' ∉ pre → '"' ∉ post →
        parse257 (pre ++ '"' :: (mid ++ '"' :: post)).asString = .ok mid.asString) := by
  refine ⟨?_, ?_, ?_⟩
  · intro msg h
    have hfi : msg.data.findIdx? (fun c => c = '"') = none := by
      rw [List.findIdx?_eq_none_iff]
      intro x hx
      simp only [decide_eq_false_iff_not]
      intro he
      exact h (he ▸ hx)
    have hla : goLastIndex msg.data '"' = none := by
      unfold goLastIndex
      have : msg.data.reverse.findIdx? (fun c => c = '"') = none := by
        rw [List.findIdx?_eq_none_iff]
        intro x hx
        simp only [decide_eq_false_iff_not]
        intro he
        exact h (he ▸ (List.mem_reverse.mp hx))
      rw [this]
    unfold parse257
    rw [hfi, hla]
  · intro a b ha hb
    have hfi : ((a ++ '"' :: b).asString).data.findIdx? (fun c => c = '"') =
        some a.length := by
      rw [data_asString]
      exact findIdxQ_prefix a b ha
    have hrev : (a ++ '"' :: b).reverse = b.reverse ++ '"' :: a.reverse := by simp
    have hla : goLastIndex ((a ++ '"' :: b).asString).data '"' = some a.length := by
      unfold goLastIndex
      rw [data_asString, hrev,
        findIdxQ_prefix b.reverse a.reverse (fun hx => hb (List.mem_reverse.mp hx))]
      have hlen : (a ++ '"' :: b).length = a.length + 1 + b.length := by
        simp
        omega
      rw [hlen, List.length_reverse]
      dsimp only
      congr 1
      omega
    unfold parse257
    rw [hfi, hla]
    dsimp only
    rw [if_neg (by omega)]
  · intro pre mid post hpre hpost
    have hfi : ((pre ++ '"' :: (mid ++ '"' :: post)).asString).data.findIdx?
        (fun c => c = '"') = some pre.length := by
      rw [data_asString]
      exact findIdxQ_prefix pre _ hpre
    have hrev : (pre ++ '"' :: (mid ++ '"' :: post)).reverse =
        post.reverse ++ '"' :: (mid.reverse ++ '"' :: pre.reverse) := by
      simp
    have hlen : (pre ++ '"' :: (mid ++ '"' :: post)).length =
        pre.length + 1 + mid.length + 1 + post.length := by
      simp
      omega
    have hla : goLastIndex ((pre ++ '"' :: (mid ++ '"' :: post)).asString).data '"' =
        some (pre.length + 1 + mid.length) := by
      unfold goLastIndex
      rw [data_asString, hrev,
        findIdxQ_prefix post.reverse _ (fun hx => hpost (List.mem_reverse.mp hx)),
        hlen, List.length_reverse]
      dsimp only
      congr 1
      omega
    unfold parse257
    rw [hfi, hla]
    dsimp only
    rw [if_pos (by omega)]
    rw [data_asString]
    have hdrop : (pre ++ '"' :: (mid ++ '"' :: post)).drop (pre.length + 1) =
        mid ++ '"' :: post := by
      have : pre ++ '"' :: (mid ++ '"' :: post) =
          (pre ++ ['"']) ++ (mid ++ '"' :: post) := by simp
      rw [this]
      have hl : (pre ++ ['"']).length = pre.length + 1 := by simp
      rw [← hl]
      exact List.drop_left _ _
    rw [hdrop]
    have harith : pre.length + 1 + mid.length - (pre.length + 1) = mid.length := by omega
    rw [harith]
    have htake : (mid ++ '"' :: post).take mid.length = mid := List.take_left _ _
    rw [htake]

/-- Claim C4, witness: the amended behaviour at concrete messages,
including the spec's example. -/
theorem c4_witness :
    parse257 "257 \"/home/user\" is current directory." = .ok "/home/user" ∧
    parse257 "no quotes here" = .err (.msg "Unsuported response format") ∧
    parse257 "one \" quote" = .panic := by
  refine ⟨?_, ?_, ?_⟩
  · have h := c4_quote_cases.2.2 "257 ".data "/home/user".data
      " is current directory.".data (by decide) (by decide)
    rw [show ("257 ".data ++ '"' :: ("/home/user".data ++ '"' ::
      " is current directory.".data)).asString =
      "257 \"/home/user\" is current directory." from by decide] at h
    exact h
  · exact c4_quote_cases.1 "no quotes here" (by decide)
  · have h := c4_quote_cases.2.1 "one ".data " quote".data (by decide) (by decide)
    rw [show ("one ".data ++ '"' :: " quote".data).asString =
      "one \" quote" from by decide] at h
    exact h

/-- The command exchanges observable on the control connection during one
`transferCmd` run: the four address negotiations and the transfer command
line itself. -/
inductive CmdKind where
  | pasv : CmdKind
  | epsv : CmdKind
  | port : CmdKind
  | eprt : CmdKind
  | xfer : CmdKind
deriving DecidableEq, Repr

/-- Environment oracle for one `transferCmd` run: address-family facts
about the control connection and the outcome of each network or
command/reply step, resolved by the outside world. -/
structure NegEnv where
  remoteSplitOk : Bool
  remoteHost : String
  remoteIsV4 : Bool
  pasvResp : Except GoError (String × Int)
  epsvResp : Except GoError Int
  dialOk : Bool
  localSplitOk : Bool
  listenOk : Bool
  localIsV4 : Bool
  portResp : Except GoError Unit
  eprtResp : Except GoError Unit
  xferResp : Except GoError (Int × String)
  acceptOk : Bool
deriving DecidableEq, Repr

/-- `makePasv`: split the control peer's address; IPv4 peers issue `PASV`
(via `Pasv`, which sends the command and decodes the 227 reply), others
issue `EPSV` and inherit the peer host. Returns the result and the list
of command exchanges issued. -/
def makePasvStep (env : NegEnv) : Except GoError (String × Int) × List CmdKind :=
  if ¬ env.remoteSplitOk then (.error (.msg "SplitHostPort"), [])
  else if env.remoteIsV4 then (env.pasvResp, [CmdKind.pasv])
  else
    match env.epsvResp with
    | .error e => (.error e, [CmdKind.epsv])
    | .ok p => (.ok (env.remoteHost, p), [CmdKind.epsv])

/-- `makePort`: split the control socket's local address, create the
listener via the one-shot background task, then announce it with `PORT`
(IPv4) or `EPRT` (otherwise). -/
def makePortStep (env : NegEnv) : Except GoError Unit × List CmdKind :=
  if ¬ env.localSplitOk then (.error (.msg "SplitHostPort"), [])
  else if ¬ env.listenOk then (.error (.msg "Unable to create listener"), [])
  else if env.localIsV4 then
    match env.portResp with
    | .error e => (.error e, [CmdKind.port])
    | .ok _ => (.ok (), [CmdKind.port])
  else
    match env.eprtResp with
    | .error e => (.error e, [CmdKind.eprt])
    | .ok _ => (.ok (), [CmdKind.eprt])

/-- The tail of `transferCmd` common to both modes: send the transfer
command line, require reply 125 or 150, and (in active mode) accept one
inbound connection. -/
def sendXferStep (tr : List CmdKind) (active : Bool) (env : NegEnv) :
    Except GoError Unit × List CmdKind :=
  match env.xferResp with
  | .error e => (.error e, tr ++ [CmdKind.xfer])
  | .ok (code, msg) =>
    if code ≠ 125 ∧ code ≠ 150 then
      (.error (.msg (Int.repr code ++ " " ++ msg)), tr ++ [CmdKind.xfer])
    else if active then
      (if env.acceptOk then (.ok (), tr ++ [CmdKind.xfer])
       else (.error (.msg "accept"), tr ++ [CmdKind.xfer]))
    else (.ok (), tr ++ [CmdKind.xfer])

/-- `FtpServerConn.transferCmd`: passive mode negotiates an address with
`makePasv` and dials it; active mode opens a listener and announces it
with `makePort`; then the transfer command line is sent. The second
component is the sequence of command exchanges issued on the control
connection, in order. -/
def transferCmd (passive : Bool) (env : NegEnv) : Except GoError Unit × List CmdKind :=
  if passive then
    match (makePasvStep env).1 with
    | .error e => (.error e, (makePasvStep env).2)
    | .ok _ =>
      if ¬ env.dialOk then (.error (.msg "dial"), (makePasvStep env).2)
      else sendXferStep (makePasvStep env).2 false env
  else
    match (makePortStep env).1 with
    | .error e => (.error e, (makePortStep env).2)
    | .ok _ => sendXferStep (makePortStep env).2 true env

/-- A command kind is an address negotiation. -/
def isNeg : CmdKind → Bool
  | .pasv => true
  | .epsv => true
  | .port => true
  | .eprt => true
  | .xfer => false

/-- The negotiation kind appropriate to the session's mode: PASV or EPSV
in passive mode, PORT or EPRT in active mode. -/
def negModeOk (passive : Bool) (k : CmdKind) : Prop :=
  if passive then k = CmdKind.pasv ∨ k = CmdKind.epsv
  else k = CmdKind.port ∨ k = CmdKind.eprt

/-- Joint classification of `makePasv` runs: either it fails before any
exchange with an empty trace, or its trace is exactly one passive-mode
negotiation. -/
theorem makePasvStep_cases (env : NegEnv) :
    (∃ e, makePasvStep env = (.error e, [])) ∨
    (∃ k, negModeOk true k ∧
      ((∃ e, makePasvStep env = (.error e, [k])) ∨
        (∃ v, makePasvStep env = (.ok v, [k])))) := by
  unfold makePasvStep
  repeat' split
  · exact .inl ⟨_, rfl⟩
  · rcases henv : env.pasvResp with e | v
    · exact .inr ⟨.pasv, .inl rfl, .inl ⟨e, rfl⟩⟩
    · exact .inr ⟨.pasv, .inl rfl, .inr ⟨v, rfl⟩⟩
  · exact .inr ⟨.epsv, .inr rfl, .inl ⟨_, rfl⟩⟩
  · exact .inr ⟨.epsv, .inr rfl, .inr ⟨_, rfl⟩⟩

/-- Joint classification of `makePort` runs: either it fails before any
exchange with an empty trace, or its trace is exactly one active-mode
negotiation. -/
theorem makePortStep_cases (env : NegEnv) :
    (∃ e, makePortStep env = (.error e, [])) ∨
    (∃ k, negModeOk false k ∧
      ((∃ e, makePortStep env = (.error e, [k])) ∨
        makePortStep env = (.ok (), [k]))) := by
  unfold makePortStep
  repeat' split
  · exact .inl ⟨_, rfl⟩
  · exact .inl ⟨_, rfl⟩
  · exact .inr ⟨.port, .inl rfl, .inl ⟨_, rfl⟩⟩
  · exact .inr ⟨.port, .inl rfl, .inr rfl⟩
  · exact .inr ⟨.eprt, .inr rfl, .inl ⟨_, rfl⟩⟩
  · exact .inr ⟨.eprt, .inr rfl, .inr rfl⟩

/-- The transfer-command step appends exactly one `xfer` exchange to the
trace, whatever its outcome. -/
theorem sendXferStep_trace (tr : List CmdKind) (active : Bool) (env : NegEnv) :
    (sendXferStep tr active env).2 = tr ++ [CmdKind.xfer] := by
  unfold sendXferStep
  repeat' split
  all_goals rfl

/-- Every `transferCmd` trace is empty, a single mode-appropriate
negotiation, or a mode-appropriate negotiation followed by the transfer
command. -/
theorem transferCmd_shape (passive : Bool) (env : NegEnv) :
    (transferCmd passive env).2 = [] ∨
    (∃ k, negModeOk passive k ∧
      ((transferCmd passive env).2 = [k] ∨
        (transferCmd passive env).2 = [k, CmdKind.xfer])) := by
  cases passive
  · unfold transferCmd
    rw [if_neg Bool.false_ne_true]
    rcases makePortStep_cases env with ⟨e, he⟩ | ⟨k, hk, ⟨e, he⟩ | he⟩ <;> rw [he]
    · exact .inl rfl
    · exact .inr ⟨k, hk, .inl rfl⟩
    · exact .inr ⟨k, hk, .inr (by rw [sendXferStep_trace]; rfl)⟩
  · unfold transferCmd
    rw [if_pos rfl]
    rcases makePasvStep_cases env with ⟨e, he⟩ | ⟨k, hk, ⟨e, he⟩ | ⟨v, he⟩⟩ <;> rw [he]
    · exact .inl rfl
    · exact .inr ⟨k, hk, .inl rfl⟩
    · dsimp only
      split
      · exact .inr ⟨k, hk, .inl rfl⟩
      · exact .inr ⟨k, hk, .inr (by rw [sendXferStep_trace]; rfl)⟩

/-- Claim C1: in every `transferCmd` run at most one address negotiation
is issued; every non-transfer command in the trace is a negotiation of
the mode-appropriate kind (PASV/EPSV when passive, PORT/EPRT when
active, so never both kinds); and whenever the transfer command line is
sent, the trace is exactly one mode-appropriate negotiation followed by
the transfer command — the negotiation exchange completes before the
transfer command line goes out. -/
theorem c1_negotiation_invariant (passive : Bool) (env : NegEnv) :
    ((transferCmd passive env).2.countP isNeg ≤ 1)
    ∧ (∀ k ∈ (transferCmd passive env).2, k ≠ CmdKind.xfer → negModeOk passive k)
    ∧ (CmdKind.xfer ∈ (transferCmd passive env).2 →
        ∃ k, negModeOk passive k ∧ (transferCmd passive env).2 = [k, CmdKind.xfer]) := by
  rcases transferCmd_shape passive env with h | ⟨k, hk, h | h⟩ <;> rw [h]
  · exact ⟨by simp, by simp, by simp⟩
  · refine ⟨by cases k <;> decide, ?_, ?_⟩
    · intro x hx _
      rw [List.mem_singleton] at hx
      exact hx ▸ hk
    · intro hx
      rw [List.mem_singleton] at hx
      cases passive <;> simp [negModeOk, ← hx] at hk
  · refine ⟨by cases k <;> decide, ?_, fun _ => ⟨k, hk, rfl⟩⟩
    intro x hx hne
    rcases List.mem_cons.mp hx with rfl | hx2
    · exact hk
    · rw [List.mem_singleton] at hx2
      exact absurd hx2 hne

/-- A fully successful passive environment used as the C1 witness. -/
def env0 : NegEnv :=
  ⟨true, "192.168.1.1", true, .ok ("192.168.1.1", 1930), .ok 0, true,
    true, true, true, .ok (), .ok (), .ok (150, "File status okay"), true⟩

/-- Claim C1, witness: a fully successful passive transfer issues exactly
`PASV` then the transfer command. -/
theorem c1_witness :
    CmdKind.xfer ∈ (transferCmd true env0).2 ∧
    ∃ k, negModeOk true k ∧ (transferCmd true env0).2 = [k, CmdKind.xfer] :=
  ⟨by decide, (c1_negotiation_invariant true env0).2.2 (by decide)⟩

/-- A Go `interface` argument as passed to `SendCmd`'s format verbs in
this repository: a string or an integer. -/
inductive GoVal where
  | str : String → GoVal
  | int : Int → GoVal
deriving DecidableEq, Repr

/-- Minimal model of Go format expansion for the `%s` and `%d` verbs that
this repository's command formats use. -/
def gofmt : List Char → List GoVal → List Char
  | '%' :: 's' :: r, .str s :: as => s.data ++ gofmt r as
  | '%' :: 's' :: r, .int _ :: as => "%!s(int)".data ++ gofmt r as
  | '%' :: 'd' :: r, .int n :: as => (Int.repr n).data ++ gofmt r as
  | '%' :: 'd' :: r, .str _ :: as => "%!d(string)".data ++ gofmt r as
  | '%' :: 's' :: r, [] => "%!s(MISSING)".data ++ gofmt r []
  | '%' :: 'd' :: r, [] => "%!d(MISSING)".data ++ gofmt r []
  | c :: r, as => c :: gofmt r as
  | [], _ => []

/-- The diagnostic line emitted by `SendCmd` before sending a command:
formats whose text starts with `PASS` are logged as the fixed redacted
string `PASS ***`; every other format is expanded with its arguments. -/
def sendCmdLogLine (format : String) (args : List GoVal) : String :=
  if "PASS".data.isPrefixOf format.data then "PASS ***"
  else (gofmt format.data args).asString

/-- The reply line `readResponse` logs on a successful read
(`logf("%d %s", code, message)`). -/
def respLogLine (code : Int) (msg : String) : String :=
  (gofmt "%d %s".data [.int code, .str msg]).asString

/-- One `SendCmd` exchange against a reply oracle: emit the (possibly
redacted) command log line, then read the reply; a successful read also
logs the reply line. Returns the outcome, the log lines emitted, and the
remaining oracle. -/
def sendCmdRun (format : String) (args : List GoVal)
    (rs : List (Except GoError (Int × String))) :
    Except GoError (Int × String) × List String × List (Except GoError (Int × String)) :=
  match rs with
  | [] => (.error (.msg "EOF"), [sendCmdLogLine format args], [])
  | .error e :: rest => (.error e, [sendCmdLogLine format args], rest)
  | .ok (code, msg) :: rest =>
    (.ok (code, msg), [sendCmdLogLine format args, respLogLine code msg], rest)

/-- The `USER`/`PASS` tail of `Login`: send `USER`, and on reply code 331
send `PASS`; returns the log lines emitted. -/
def loginUserPass (user password : String)
    (rs : List (Except GoError (Int × String))) : List String :=
  match sendCmdRun "USER %s" [.str user] rs with
  | (.error _, logs1, _) => logs1
  | (.ok (code, _), logs1, rs1) =>
    if code = 331 then
      match sendCmdRun "PASS %s" [.str password] rs1 with
      | (_, logs2, _) => logs1 ++ logs2
    else logs1

/-- The log lines emitted by `Login`: with an explicit TLS policy the
upgrade sequence `AUTH TLS` / `PBSZ 0` / `PROT P` runs first (each step
aborting the sequence on error), then `USER`/`PASS`. -/
def loginRun (tlsExplicit : Bool) (user password : String)
    (rs : List (Except GoError (Int × String))) : List String :=
  if tlsExplicit then
    match sendCmdRun "AUTH %s" [.str "TLS"] rs with
    | (.error _, logs1, _) => logs1
    | (.ok _, logs1, rs1) =>
      match sendCmdRun "PBSZ %s" [.str "0"] rs1 with
      | (.error _, logs2, _) => logs1 ++ logs2
      | (.ok _, logs2, rs2) =>
        match sendCmdRun "PROT %s" [.str "P"] rs2 with
        | (.error _, logs3, _) => logs1 ++ logs2 ++ logs3
        | (.ok _, logs3, rs3) =>
          logs1 ++ logs2 ++ logs3 ++ loginUserPass user password rs3
  else loginUserPass user password rs

/-- The log lines of the `PASS` exchange do not depend on the password. -/
theorem sendCmdRun_pass_logs (p : String)
    (rs : List (Except GoError (Int × String))) :
    (sendCmdRun "PASS %s" [.str p] rs).2.1 =
      (match rs with
       | [] => ["PASS ***"]
       | .error _ :: _ => ["PASS ***"]
       | .ok (code, msg) :: _ => ["PASS ***", respLogLine code msg]) := by
  have hred : sendCmdLogLine "PASS %s" [.str p] = "PASS ***" := by
    unfold sendCmdLogLine
    rw [if_pos (by decide)]
  match rs with
  | [] => simp [sendCmdRun, hred]
  | .error e :: rest => simp [sendCmdRun, hred]
  | .ok (code, msg) :: rest => simp [sendCmdRun, hred]

/-- The `USER`/`PASS` log trace does not depend on the password. -/
theorem loginUserPass_logs_const (user p1 p2 : String)
    (rs : List (Except GoError (Int × String))) :
    loginUserPass user p1 rs = loginUserPass user p2 rs := by
  unfold loginUserPass
  rcases hu : sendCmdRun "USER %s" [.str user] rs with ⟨res, logs1, rs1⟩
  cases res with
  | error e => rfl
  | ok cm =>
    rcases cm with ⟨code, msg⟩
    dsimp only
    split
    · rcases h1 : sendCmdRun "PASS %s" [.str p1] rs1 with ⟨r1, l1, t1⟩
      rcases h2 : sendCmdRun "PASS %s" [.str p2] rs1 with ⟨r2, l2, t2⟩
      dsimp only
      have e1 : l1 = (sendCmdRun "PASS %s" [.str p1] rs1).2.1 := by rw [h1]
      have e2 : l2 = (sendCmdRun "PASS %s" [.str p2] rs1).2.1 := by rw [h2]
      rw [e1, e2, sendCmdRun_pass_logs, sendCmdRun_pass_logs]
    · rfl

/-- Claim C8: the diagnostic line for any `PASS` command is the fixed
redacted text `PASS ***` whatever the arguments, and the whole login
sequence's log trace is identical for any two passwords: the password
value never reaches the logging capability. -/
theorem c8_password_never_logged (tlsExplicit : Bool) (user p1 p2 : String)
    (rs : List (Except GoError (Int × String))) :
    (∀ args, sendCmdLogLine "PASS %s" args = "PASS ***")
    ∧ loginRun tlsExplicit user p1 rs = loginRun tlsExplicit user p2 rs := by
  constructor
  · intro args
    unfold sendCmdLogLine
    rw [if_pos (by decide)]
  · unfold loginRun
    cases tlsExplicit
    · exact loginUserPass_logs_const user p1 p2 rs
    · rw [if_pos rfl, if_pos rfl]
      rcases sendCmdRun "AUTH %s" [.str "TLS"] rs with ⟨ra, la, rsa⟩
      cases ra with
      | error e => rfl
      | ok v =>
        dsimp only
        rcases sendCmdRun "PBSZ %s" [.str "0"] rsa with ⟨rb, lb, rsb⟩
        cases rb with
        | error e => rfl
        | ok v2 =>
          dsimp only
          rcases sendCmdRun "PROT %s" [.str "P"] rsb with ⟨rc, lc, rsc⟩
          cases rc with
          | error e => rfl
          | ok v3 =>
            dsimp only
            rw [loginUserPass_logs_const user p1 p2 rsc]

/-- Decimal digit characters of a natural number, most significant
first — the reference form of Go's `%d` / Lean's `Nat.repr`. -/
def natDigits (n : Nat) : List Char :=
  if n < 10 then [Nat.digitChar n]
  else natDigits (n / 10) ++ [Nat.digitChar (n % 10)]
decreasing_by exact Nat.div_lt_self (by omega) (by omega)

/-- Digit characters are digits. -/
theorem digitChar_isDigit (m : Nat) (h : m < 10) : (Nat.digitChar m).isDigit = true := by
  interval_cases m <;> decide

/-- Code-point value of a digit character. -/
theorem digitChar_toNat (m : Nat) (h : m < 10) : (Nat.digitChar m).toNat = 48 + m := by
  interval_cases m <;> decide

/-- A number's digit list is never empty. -/
theorem natDigits_ne_nil (n : Nat) : natDigits n ≠ [] := by
  unfold natDigits
  split
  · simp
  · simp

/-- Every character of a number's digit list is a digit. -/
theorem natDigits_all_digit (n : Nat) : ∀ c ∈ natDigits n, c.isDigit = true := by
  induction n using natDigits.induct with
  | case1 n h =>
    unfold natDigits
    rw [if_pos h]
    intro c hc
    rw [List.mem_singleton] at hc
    exact hc ▸ digitChar_isDigit n h
  | case2 n h ih =>
    unfold natDigits
    rw [if_neg h]
    intro c hc
    rcases List.mem_append.mp hc with h1 | h2
    · exact ih c h1
    · rw [List.mem_singleton] at h2
      exact h2 ▸ digitChar_isDigit (n % 10) (Nat.mod_lt n (by omega))

/-- Folding a digit list most-significant-first. -/
theorem charsVal_append_digit (l : List Char) (c : Char) :
    charsVal (l ++ [c]) = 10 * charsVal l + (c.toNat - 48) := by
  unfold charsVal
  rw [List.foldl_append]
  rfl

/-- The decimal value of a number's digit list is the number. -/
theorem charsVal_natDigits (n : Nat) : charsVal (natDigits n) = n := by
  induction n using natDigits.induct with
  | case1 n h =>
    unfold natDigits
    rw [if_pos h]
    have : charsVal [Nat.digitChar n] = (Nat.digitChar n).toNat - 48 := by
      unfold charsVal
      simp
    rw [this, digitChar_toNat n h]
    omega
  | case2 n h ih =>
    unfold natDigits
    rw [if_neg h, charsVal_append_digit, ih,
      digitChar_toNat (n % 10) (Nat.mod_lt n (by omega))]
    omega

/-- Specification of core's `Nat.toDigitsCore` at base 10 with enough
fuel. -/
theorem toDigitsCore_eq (fuel : Nat) : ∀ n acc, n < fuel →
    Nat.toDigitsCore 10 fuel n acc = natDigits n ++ acc := by
  induction fuel with
  | zero => intro n acc h; omega
  | succ fuel ih =>
    intro n acc h
    unfold Nat.toDigitsCore
    by_cases h0 : n / 10 = 0
    · rw [if_pos h0]
      have hn : n < 10 := by omega
      have : natDigits n = [Nat.digitChar n] := by
        unfold natDigits
        rw [if_pos hn]
      rw [this]
      have : n % 10 = n := Nat.mod_eq_of_lt hn
      rw [this]
      rfl
    · rw [if_neg h0]
      have hn : ¬ n < 10 := by omega
      have hfuel : n / 10 < fuel := by
        have h1 : n / 10 < n := Nat.div_lt_self (by omega) (by omega)
        omega
      rw [ih (n / 10) (Nat.digitChar (n % 10) :: acc) hfuel]
      have : natDigits n = natDigits (n / 10) ++ [Nat.digitChar (n % 10)] := by
        conv =>
          lhs
          unfold natDigits
        rw [if_neg hn]
      rw [this, List.append_assoc]
      rfl

/-- The characters of `Nat.repr`. -/
theorem natRepr_data (n : Nat) : (Nat.repr n).data = natDigits n := by
  unfold Nat.repr Nat.toDigits
  rw [toDigitsCore_eq (n + 1) n [] (Nat.lt_succ_self n), List.append_nil]
  rfl

/-- Matching one `([0-9]+),` unit of `regexp227` at the current position:
a maximal nonempty digit run followed by a literal comma. (For this
pattern greedy matching needs no backtracking: a digit run can never end
before a comma prematurely, since the two character classes are
disjoint.) -/
def matchNumComma (cs : List Char) : Option (List Char × List Char) :=
  if cs.takeWhile Char.isDigit = [] then none
  else
    match cs.dropWhile Char.isDigit with
    | ',' :: r2 => some (cs.takeWhile Char.isDigit, r2)
    | _ => none

/-- Matching the whole pattern
`([0-9]+),([0-9]+),([0-9]+),([0-9]+),([0-9]+),([0-9]+)` of `regexp227`
anchored at the current position, returning the six capture groups. -/
def matchSixAt (cs : List Char) : Option (List (List Char)) :=
  match matchNumComma cs with
  | none => none
  | some (d1, r1) =>
    match matchNumComma r1 with
    | none => none
    | some (d2, r2) =>
      match matchNumComma r2 with
      | none => none
      | some (d3, r3) =>
        match matchNumComma r3 with
        | none => none
        | some (d4, r4) =>
          match matchNumComma r4 with
          | none => none
          | some (d5, r5) =>
            if r5.takeWhile Char.isDigit = [] then none
            else some [d1, d2, d3, d4, d5, r5.takeWhile Char.isDigit]

/-- `regexp227.FindStringSubmatch`'s capture groups: the leftmost
position where the pattern matches wins (Go regexp semantics). -/
def reFind227 : List Char → Option (List (List Char))
  | [] => none
  | c :: rest =>
    match matchSixAt (c :: rest) with
    | some gs => some gs
    | none => reFind227 rest

/-- Splitting a digit block followed by a non-digit under
`takeWhile`/`dropWhile`. -/
theorem takeWhile_digit_block (d : List Char) (c : Char) (r : List Char)
    (hd : ∀ x ∈ d, x.isDigit = true) (hc : c.isDigit = false) :
    (d ++ c :: r).takeWhile Char.isDigit = d ∧
      (d ++ c :: r).dropWhile Char.isDigit = c :: r := by
  induction d with
  | nil => simp [List.takeWhile_cons, List.dropWhile_cons, hc]
  | cons x t ih =>
    have hx : x.isDigit = true := hd x (by simp)
    have ht : ∀ y ∈ t, y.isDigit = true := fun y hy => hd y (by simp [hy])
    obtain ⟨h1, h2⟩ := ih ht
    simp [List.takeWhile_cons, List.dropWhile_cons, hx, h1, h2]

/-- `matchNumComma` on a digit block followed by a comma. -/
theorem matchNumComma_block (d : List Char) (r : List Char)
    (hne : d ≠ []) (hd : ∀ x ∈ d, x.isDigit = true) :
    matchNumComma (d ++ ',' :: r) = some (d, r) := by
  obtain ⟨h1, h2⟩ := takeWhile_digit_block d ',' r hd (by decide)
  unfold matchNumComma
  rw [h1, h2, if_neg hne]
  rfl

/-- `matchNumComma` fails when the maximal digit run is followed by
anything other than a comma. -/
theorem matchNumComma_none (cs d : List Char) (c : Char) (r : List Char)
    (hcs : cs = d ++ c :: r) (hd : ∀ x ∈ d, x.isDigit = true)
    (hc : c.isDigit = false) (hc2 : c ≠ ',') :
    matchNumComma cs = none := by
  subst hcs
  obtain ⟨h1, h2⟩ := takeWhile_digit_block d c r hd hc
  unfold matchNumComma
  rw [h1, h2]
  by_cases hde : d = []
  · rw [if_pos hde]
  · rw [if_neg hde]
    split
    · simp_all
    · rfl

/-- `matchSixAt` fails when the maximal digit run at the current position
is followed by anything other than a comma. -/
theorem matchSixAt_no_comma (cs d : List Char) (c : Char) (r : List Char)
    (hcs : cs = d ++ c :: r) (hd : ∀ x ∈ d, x.isDigit = true)
    (hc : c.isDigit = false) (hc2 : c ≠ ',') :
    matchSixAt cs = none := by
  unfold matchSixAt
  rw [matchNumComma_none cs d c r hcs hd hc hc2]

/-- One step of the leftmost search when the pattern cannot match here. -/
theorem reFind227_cons_none (c : Char) (rest : List Char)
    (h : matchSixAt (c :: rest) = none) :
    reFind227 (c :: rest) = reFind227 rest := by
  show (match matchSixAt (c :: rest) with
    | some gs => some gs
    | none => reFind227 rest) = reFind227 rest
  rw [h]

/-- The leftmost search skips a maximal digit run followed by a non-comma
non-digit: no match can start inside the run. -/
theorem reFind227_digitrun (d : List Char) (c : Char) (r : List Char)
    (hd : ∀ x ∈ d, x.isDigit = true) (hc : c.isDigit = false) (hc2 : c ≠ ',') :
    reFind227 (d ++ c :: r) = reFind227 r := by
  induction d with
  | nil =>
    exact reFind227_cons_none c r (matchSixAt_no_comma _ [] c r rfl (by simp) hc hc2)
  | cons x t ih =>
    have ht : ∀ y ∈ t, y.isDigit = true := fun y hy => hd y (by simp [hy])
    have hstep : matchSixAt (x :: (t ++ c :: r)) = none :=
      matchSixAt_no_comma _ (x :: t) c r rfl hd hc hc2
    calc reFind227 ((x :: t) ++ c :: r) = reFind227 (t ++ c :: r) :=
          reFind227_cons_none x (t ++ c :: r) hstep
      _ = reFind227 r := ih ht

/-- The leftmost search skips any run of characters that are neither
digits nor commas. -/
theorem reFind227_nondigit_run (w r : List Char)
    (hw : ∀ x ∈ w, x.isDigit = false ∧ x ≠ ',') :
    reFind227 (w ++ r) = reFind227 r := by
  induction w with
  | nil => rfl
  | cons x t ih =>
    have hx := hw x (by simp)
    have ht : ∀ y ∈ t, y.isDigit = false ∧ y ≠ ',' := fun y hy => hw y (by simp [hy])
    calc reFind227 ((x :: t) ++ r) = reFind227 (t ++ r) :=
          reFind227_cons_none x (t ++ r)
            (matchSixAt_no_comma _ [] x (t ++ r) rfl (by simp) hx.1 hx.2)
      _ = reFind227 r := ih ht

/-- The literal prefix `227 Entering Passive Mode (` of the reply admits
no match start, so the leftmost search moves past it. -/
theorem reFind227_skipPrefix (tail : List Char) :
    reFind227 ("227 Entering Passive Mode (".data ++ tail) = reFind227 tail := by
  have h1 : "227 Entering Passive Mode (".data ++ tail =
      ['2', '2', '7'] ++ ' ' :: ("Entering Passive Mode (".data ++ tail) := rfl
  rw [h1, reFind227_digitrun ['2', '2', '7'] ' ' _ (by decide) (by decide) (by decide),
    reFind227_nondigit_run "Entering Passive Mode (".data tail (by decide)]

/-- The leftmost search succeeds where the pattern matches. -/
theorem reFind227_of_match (c : Char) (rest : List Char) (gs : List (List Char))
    (h : matchSixAt (c :: rest) = some gs) :
    reFind227 (c :: rest) = some gs := by
  show (match matchSixAt (c :: rest) with
    | some gs => some gs
    | none => reFind227 rest) = some gs
  rw [h]

/-- `matchSixAt` on six digit blocks separated by commas and closed by a
parenthesis: the capture groups are exactly the six blocks. -/
theorem matchSixAt_blocks (d1 d2 d3 d4 d5 d6 tail : List Char)
    (h1 : d1 ≠ []) (hd1 : ∀ x ∈ d1, x.isDigit = true)
    (h2 : d2 ≠ []) (hd2 : ∀ x ∈ d2, x.isDigit = true)
    (h3 : d3 ≠ []) (hd3 : ∀ x ∈ d3, x.isDigit = true)
    (h4 : d4 ≠ []) (hd4 : ∀ x ∈ d4, x.isDigit = true)
    (h5 : d5 ≠ []) (hd5 : ∀ x ∈ d5, x.isDigit = true)
    (h6 : d6 ≠ []) (hd6 : ∀ x ∈ d6, x.isDigit = true) :
    matchSixAt (d1 ++ ',' :: (d2 ++ ',' :: (d3 ++ ',' :: (d4 ++ ',' ::
      (d5 ++ ',' :: (d6 ++ ')' :: tail)))))) = some [d1, d2, d3, d4, d5, d6] := by
  obtain ⟨ht6, _⟩ := takeWhile_digit_block d6 ')' tail hd6 (by decide)
  unfold matchSixAt
  rw [matchNumComma_block d1 _ h1 hd1]
  dsimp only
  rw [matchNumComma_block d2 _ h2 hd2]
  dsimp only
  rw [matchNumComma_block d3 _ h3 hd3]
  dsimp only
  rw [matchNumComma_block d4 _ h4 hd4]
  dsimp only
  rw [matchNumComma_block d5 _ h5 hd5]
  dsimp only
  rw [ht6, if_neg h6]

/-- Signed 64-bit wrap-around of an integer, as Go `int` arithmetic. -/
def int64wrap (x : Int) : Int := (x + 2 ^ 63) % 2 ^ 64 - 2 ^ 63

/-- Go `strconv.Atoi`'s returned value with the error ignored, as
`parse227` uses it: 0 on a syntax error, clamped to the int64 range on
overflow, otherwise the parsed value (with an optional leading sign). -/
def goAtoi (cs : List Char) : Int :=
  if cs.headD ' ' = '-' then
    (if cs.tail = [] ∨ ¬ cs.tail.all Char.isDigit then 0
     else if 2 ^ 63 < charsVal cs.tail then -(2 ^ 63) else -(charsVal cs.tail : Int))
  else if cs.headD ' ' = '+' then
    (if cs.tail = [] ∨ ¬ cs.tail.all Char.isDigit then 0
     else if 2 ^ 63 ≤ charsVal cs.tail then 2 ^ 63 - 1 else (charsVal cs.tail : Int))
  else
    (if cs = [] ∨ ¬ cs.all Char.isDigit then 0
     else if 2 ^ 63 ≤ charsVal cs then 2 ^ 63 - 1 else (charsVal cs : Int))

/-- Go `strings.Join`. -/
def goJoin (sep : List Char) : List (List Char) → List Char
  | [] => []
  | [x] => x
  | x :: xs => x ++ sep ++ goJoin sep xs

/-- `parse227`: run `regexp227` over the message; with no match report an
error; otherwise the six capture groups are the numbers — host is the
first four joined by `.`, port is `(p1 << 8) + p2` with `Atoi` errors
ignored and Go `int` (int64) wrap-around arithmetic. -/
def parse227 (msg : String) : GoResult (String × Int) :=
  match reFind227 msg.data with
  | none => .err (.msg ("No matching pattern for message: " ++ msg))
  | some numbers =>
    .ok ((goJoin ['.'] (numbers.take 4)).asString,
      int64wrap (int64wrap (goAtoi (numbers.getD 4 []) * 2 ^ 8) +
        goAtoi (numbers.getD 5 [])))

/-- Appending strings concatenates their characters. -/
theorem goData_append (s t : String) : (s ++ t).data = s.data ++ t.data := rfl

/-- Rebuilding a string from its characters. -/
theorem asString_data (s : String) : s.data.asString = s := rfl

/-- Characters of the literal separators used in the 227 reply. -/
theorem data_comma : ",".data = [','] := rfl

/-- Characters of the dot separator. -/
theorem data_dot : ".".data = ['.'] := rfl

/-- Characters of the closing `).` of the 227 reply. -/
theorem data_paren_dot : ").".data = [')', '.'] := rfl

/-- Wrap-around is the identity inside the int64 range. -/
theorem int64wrap_small (x : Int) (h0 : 0 ≤ x) (h1 : x < 2 ^ 63) :
    int64wrap x = x := by
  unfold int64wrap
  have h64 : (2 : Int) ^ 64 = 18446744073709551616 := by norm_num
  have h63 : (2 : Int) ^ 63 = 9223372036854775808 := by norm_num
  rw [h64, h63]
  rw [h63] at h1
  omega

/-- Bound transfer for the claim's 0-255 inputs. -/
theorem lt_two_pow_63_of_le_255 (n : Nat) (h : n ≤ 255) : n < 2 ^ 63 := by
  have hp : (2 : Nat) ^ 63 = 9223372036854775808 := by norm_num
  omega

/-- `Atoi` recovers a number from its digit list. -/
theorem goAtoi_natDigits (n : Nat) (h : n < 2 ^ 63) :
    goAtoi (natDigits n) = (n : Int) := by
  cases hc : natDigits n with
  | nil => exact absurd hc (natDigits_ne_nil n)
  | cons c t =>
    have hcd : c.isDigit = true := natDigits_all_digit n c (by rw [hc]; simp)
    have hminus : ¬ (c = '-') := by
      intro he
      rw [he] at hcd
      exact absurd hcd (by decide)
    have hplus : ¬ (c = '+') := by
      intro he
      rw [he] at hcd
      exact absurd hcd (by decide)
    have hall : (c :: t).all Char.isDigit = true := by
      rw [List.all_eq_true]
      intro x hx
      exact natDigits_all_digit n x (hc ▸ hx)
    have hval : charsVal (c :: t) = n := hc ▸ charsVal_natDigits n
    unfold goAtoi
    simp only [List.headD_cons]
    rw [if_neg hminus, if_neg hplus,
      if_neg (by
        rintro (he | hne)
        · exact List.noConfusion he
        · exact hne hall),
      hval, if_neg (by intro hle; omega)]

/-- The leftmost match over six comma-separated digit blocks closed by a
parenthesis starts at the first block. -/
theorem reFind227_at_blocks (d1 d2 d3 d4 d5 d6 tail : List Char)
    (h1 : d1 ≠ []) (hd1 : ∀ x ∈ d1, x.isDigit = true)
    (h2 : d2 ≠ []) (hd2 : ∀ x ∈ d2, x.isDigit = true)
    (h3 : d3 ≠ []) (hd3 : ∀ x ∈ d3, x.isDigit = true)
    (h4 : d4 ≠ []) (hd4 : ∀ x ∈ d4, x.isDigit = true)
    (h5 : d5 ≠ []) (hd5 : ∀ x ∈ d5, x.isDigit = true)
    (h6 : d6 ≠ []) (hd6 : ∀ x ∈ d6, x.isDigit = true) :
    reFind227 (d1 ++ ',' :: (d2 ++ ',' :: (d3 ++ ',' :: (d4 ++ ',' ::
      (d5 ++ ',' :: (d6 ++ ')' :: tail)))))) = some [d1, d2, d3, d4, d5, d6] := by
  have hm := matchSixAt_blocks d1 d2 d3 d4 d5 d6 tail h1 hd1 h2 hd2 h3 hd3 h4 hd4
    h5 hd5 h6 hd6
  cases hce : d1 with
  | nil => exact absurd hce h1
  | cons c t =>
    rw [hce, List.cons_append] at hm
    rw [List.cons_append]
    exact reFind227_of_match c _ _ hm

/-- Evaluation of `parse227` once the match groups are known. -/
theorem parse227_eval (msg : String) (d1 d2 d3 d4 d5 d6 : List Char)
    (h : reFind227 msg.data = some [d1, d2, d3, d4, d5, d6]) :
    parse227 msg = .ok ((goJoin ['.'] [d1, d2, d3, d4]).asString,
      int64wrap (int64wrap (goAtoi d5 * 2 ^ 8) + goAtoi d6)) := by
  unfold parse227
  rw [h]
  rfl

set_option maxRecDepth 4000 in
/-- Claim C3: for all six numbers in 0-255, decoding
`227 Entering Passive Mode (h1,h2,h3,h4,p1,p2).` with the 227 codec
returns the first four numbers joined by `.` as the host and
`p1*256 + p2` as the port, with no error. -/
theorem c3_parse227_roundtrip (h1 h2 h3 h4 p1 p2 : Nat)
    (b1 : h1 ≤ 255) (b2 : h2 ≤ 255) (b3 : h3 ≤ 255) (b4 : h4 ≤ 255)
    (b5 : p1 ≤ 255) (b6 : p2 ≤ 255) :
    parse227 ("227 Entering Passive Mode (" ++ Nat.repr h1 ++ "," ++ Nat.repr h2 ++
        "," ++ Nat.repr h3 ++ "," ++ Nat.repr h4 ++ "," ++ Nat.repr p1 ++ "," ++
        Nat.repr p2 ++ ").") =
      .ok (Nat.repr h1 ++ "." ++ Nat.repr h2 ++ "." ++ Nat.repr h3 ++ "." ++
        Nat.repr h4, ((p1 * 256 + p2 : Nat) : Int)) := by
  have hdata : ("227 Entering Passive Mode (" ++ Nat.repr h1 ++ "," ++ Nat.repr h2 ++
      "," ++ Nat.repr h3 ++ "," ++ Nat.repr h4 ++ "," ++ Nat.repr p1 ++ "," ++
      Nat.repr p2 ++ ").").data =
      "227 Entering Passive Mode (".data ++ (natDigits h1 ++ ',' :: (natDigits h2 ++
        ',' :: (natDigits h3 ++ ',' :: (natDigits h4 ++ ',' :: (natDigits p1 ++
        ',' :: (natDigits p2 ++ ')' :: ['.'])))))) := by
    simp only [goData_append, natRepr_data, data_comma, data_paren_dot,
      List.append_assoc, List.cons_append, List.singleton_append, List.nil_append]
  have hfind : reFind227 (("227 Entering Passive Mode (" ++ Nat.repr h1 ++ "," ++
      Nat.repr h2 ++ "," ++ Nat.repr h3 ++ "," ++ Nat.repr h4 ++ "," ++ Nat.repr p1 ++
      "," ++ Nat.repr p2 ++ ").") : String).data =
      some [natDigits h1, natDigits h2, natDigits h3, natDigits h4, natDigits p1,
        natDigits p2] := by
    rw [hdata, reFind227_skipPrefix]
    exact reFind227_at_blocks _ _ _ _ _ _ _
      (natDigits_ne_nil h1) (natDigits_all_digit h1)
      (natDigits_ne_nil h2) (natDigits_all_digit h2)
      (natDigits_ne_nil h3) (natDigits_all_digit h3)
      (natDigits_ne_nil h4) (natDigits_all_digit h4)
      (natDigits_ne_nil p1) (natDigits_all_digit p1)
      (natDigits_ne_nil p2) (natDigits_all_digit p2)
  rw [parse227_eval _ _ _ _ _ _ _ hfind]
  have hhost : (goJoin ['.']
      [natDigits h1, natDigits h2, natDigits h3, natDigits h4]).asString =
      Nat.repr h1 ++ "." ++ Nat.repr h2 ++ "." ++ Nat.repr h3 ++ "." ++ Nat.repr h4 := by
    have hd : goJoin ['.'] [natDigits h1, natDigits h2, natDigits h3, natDigits h4] =
        (Nat.repr h1 ++ "." ++ Nat.repr h2 ++ "." ++ Nat.repr h3 ++ "." ++
          Nat.repr h4).data := by
      simp only [goJoin, goData_append, natRepr_data, data_dot, List.append_assoc,
        List.cons_append, List.singleton_append, List.nil_append]
    rw [hd, asString_data]
  have hp1 : goAtoi (natDigits p1) = (p1 : Int) :=
    goAtoi_natDigits p1 (lt_two_pow_63_of_le_255 p1 b5)
  have hp2 : goAtoi (natDigits p2) = (p2 : Int) :=
    goAtoi_natDigits p2 (lt_two_pow_63_of_le_255 p2 b6)
  rw [hhost, hp1, hp2]
  have hpow : (2 : Int) ^ 8 = 256 := by norm_num
  rw [hpow]
  have hq : (2 : Int) ^ 63 = 9223372036854775808 := by norm_num
  have hw1 : int64wrap ((p1 : Int) * 256) = (p1 : Int) * 256 := by
    apply int64wrap_small
    · omega
    · rw [hq]
      omega
  rw [hw1]
  have hw2 : int64wrap ((p1 : Int) * 256 + (p2 : Int)) = (p1 : Int) * 256 + (p2 : Int) := by
    apply int64wrap_small
    · omega
    · rw [hq]
      omega
  rw [hw2]
  have hcast : ((p1 * 256 + p2 : Nat) : Int) = (p1 : Int) * 256 + (p2 : Int) := by
    push_cast
    ring
  rw [hcast]

/-- Claim C3, witness: the spec's example reply decodes to host
`192.168.1.1` and port `1930`. -/
theorem c3_witness :
    parse227 "227 Entering Passive Mode (192,168,1,1,7,138)." =
      .ok ("192.168.1.1", 1930) := by
  have h := c3_parse227_roundtrip 192 168 1 1 7 138 (by decide) (by decide)
    (by decide) (by decide) (by decide) (by decide)
  rw [show ("227 Entering Passive Mode (" ++ Nat.repr 192 ++ "," ++ Nat.repr 168 ++
      "," ++ Nat.repr 1 ++ "," ++ Nat.repr 1 ++ "," ++ Nat.repr 7 ++ "," ++
      Nat.repr 138 ++ ").") = "227 Entering Passive Mode (192,168,1,1,7,138)." from
      by decide] at h
  rw [show (Nat.repr 192 ++ "." ++ Nat.repr 168 ++ "." ++ Nat.repr 1 ++ "." ++
      Nat.repr 1) = "192.168.1.1" from by decide] at h
  rw [show ((7 * 256 + 138 : Nat) : Int) = 1930 from by decide] at h
  exact h
